import Mathlib

/-!
Verification development for the "Available Now" Telegram bot repository
(three variants: `bot.py`, `bot_simple.py`, `main.py`).

The repository keeps its state in Python dictionaries keyed by the Telegram
user id.  We embed a Python `dict` as an association list whose keys appear
in insertion order: inserting an existing key replaces its value in place,
inserting a fresh key appends at the end, and `del` removes the entry.
Time is modelled as a natural number of seconds; `timedelta(hours=h)` is
`h * 3600` seconds, and the several `datetime.now()` calls issued inside a
single handler are modelled as one instant `now` passed explicitly.
-/

namespace Teagram

/-- A Python `dict` with `Nat` keys, as an association list in insertion
order. -/
abbrev Dict (α : Type) : Type := List (Nat × α)

/-- Python `d.get(k)` / `d[k]`. -/
def dictGet {α : Type} : Dict α → Nat → Option α
  | [], _ => none
  | p :: rest, k => if p.1 = k then some p.2 else dictGet rest k

/-- Python `d[k] = v`: replace in place when the key exists, append
otherwise. -/
def dictInsert {α : Type} : Dict α → Nat → α → Dict α
  | [], k, v => [(k, v)]
  | p :: rest, k, v =>
    if p.1 = k then (k, v) :: rest else p :: dictInsert rest k v

/-- Python `del d[k]` (guarded by `if k in d` at every call site in the
source, so removing an absent key is a no-op). -/
def dictRemove {α : Type} (d : Dict α) (k : Nat) : Dict α :=
  d.filter (fun p => decide (p.1 ≠ k))

/-- The key sequence of a dict. -/
def dictKeys {α : Type} (d : Dict α) : List Nat := d.map Prod.fst

/-- Well-formedness of the embedding: a Python dict never holds two entries
with the same key. -/
def KeysNodup {α : Type} (d : Dict α) : Prop := (dictKeys d).Nodup

/-! ### Data model

A profile is a Python dict with string values; optional keys (the ones the
dialogue lets the operator skip) are `Option`s, list-valued keys are lists.
Media file ids are numbers. -/

structure Profile where
  name : String := ""
  offer_types : List String := []
  in_person_type : String := ""
  in_person_location : String := ""
  about : String := ""
  contact_method : String := ""
  phone : String := ""
  email : String := ""
  telegram_username : String := ""
  social_links : Option String := none
  rates : Option String := none
  disclaimer : Option String := none
  images : List Nat := []
  videos : List Nat := []
  deriving DecidableEq, Repr

/-- A listing record as stored by `main.py`'s `Database.create_listing`
(`created`, `expires`, `hours`); times are seconds. -/
structure ListingM where
  created : Nat
  expires : Nat
  hours : Nat
  deriving DecidableEq, Repr

/-- A listing record as stored by `bot.py`'s
`ProfileDatabase.create_listing` (`message_id`, `expires_at`,
`duration_hours`). -/
structure ListingB where
  message_id : Nat
  expires_at : Nat
  duration_hours : Nat
  deriving DecidableEq, Repr

/-! ### main.py: class Database -/

/-- The in-memory database of `main.py` (`user_states` is carried
separately by the form-dialogue embedding below). -/
structure Database where
  profiles : Dict Profile
  listings : Dict ListingM
  deriving DecidableEq, Repr

/-- Embeds `main.py` `Database.save_profile` (lines 46-48). -/
def Database.save_profile (db : Database) (user_id : Nat) (profile : Profile) :
    Database :=
  { db with profiles := dictInsert db.profiles user_id profile }

/-- Embeds `main.py` `Database.get_profile` (lines 50-51). -/
def Database.get_profile (db : Database) (user_id : Nat) : Option Profile :=
  dictGet db.profiles user_id

/-- Embeds `main.py` `Database.delete_profile` (lines 53-60): when a profile
exists, both the profile and any listing for the user are removed and `True`
is returned; otherwise nothing changes and `False` is returned. -/
def Database.delete_profile (db : Database) (user_id : Nat) :
    Database × Bool :=
  if (dictGet db.profiles user_id).isSome then
    ({ profiles := dictRemove db.profiles user_id,
       listings := dictRemove db.listings user_id }, true)
  else (db, false)

/-- Embeds `main.py` `Database.create_listing` (lines 62-68):
`expires = now + timedelta(hours=hours)`. -/
def Database.create_listing (db : Database) (user_id : Nat) (now : Nat)
    (hours : Nat) : Database :=
  { db with
    listings := dictInsert db.listings user_id
      { created := now, expires := now + hours * 3600, hours := hours } }

/-- Embeds `main.py` `Database.get_active_listings` (lines 70-84): one pass
sorts entries into `active` (`expires > now`) and `expired`; the expired
keys are then deleted from the dict and the active pairs returned. -/
def Database.get_active_listings (db : Database) (now : Nat) :
    List (Nat × ListingM) × Database :=
  let active := db.listings.filter (fun p => decide (now < p.2.expires))
  let expired :=
    (db.listings.filter (fun p => decide (¬ now < p.2.expires))).map Prod.fst
  (active,
   { db with listings := expired.foldl (fun l u => dictRemove l u) db.listings })

/-! ### Authorization guards

`APPROVED_ADMINS` is a set of strings parsed from the environment; it is
empty when the variable is unset.  Each variant writes the membership test
slightly differently. -/

/-- Embeds `bot.py` `is_approved_admin` (lines 121-123):
`str(user_id) in APPROVED_ADMINS or len(APPROVED_ADMINS) == 0`. -/
def is_approved_admin (admins : List String) (user_id : Nat) : Bool :=
  admins.contains (toString user_id) || admins.length == 0

/-- Embeds the refusal guard of `bot_simple.py` (`cmd_start`,
`create_profile_start`, `mark_available`, `delete_profile`):
`len(APPROVED_ADMINS) > 0 and str(user_id) not in APPROVED_ADMINS`. -/
def refusesSimple (admins : List String) (user_id : Nat) : Bool :=
  decide (0 < admins.length) && !(admins.contains (toString user_id))

/-- Embeds the refusal guard of `main.py` (`handle_start`,
`handle_callback`): `APPROVED_ADMINS and str(user_id) not in
APPROVED_ADMINS` (an empty Python set is falsy). -/
def refusesMain (admins : List String) (user_id : Nat) : Bool :=
  !admins.isEmpty && !(admins.contains (toString user_id))

/-- Embeds `main.py` `handle_start` (lines 149-163): `true` means the menu
is sent, `false` means the unauthorized notice is sent instead. -/
def handle_start (admins : List String) (user_id : Nat) : Bool :=
  if refusesMain admins user_id then false else true

/-- Embeds the entry guard of `bot_simple.py` `cmd_start` (lines 106-126):
`true` means the menu is shown. -/
def cmd_start (admins : List String) (user_id : Nat) : Bool :=
  if refusesSimple admins user_id then false else true

/-! ### bot.py: publish action and detached deletion timer

`availability_duration` (bot.py lines 750-798) posts the rendered listing
to the group, records the listing in `ProfileDatabase.create_listing`
(lines 76-87) and spawns `schedule_listing_deletion` (lines 800-808), a
detached `asyncio.sleep(hours * 3600)` task that deletes the group message
when it wakes.  Nothing in the source ever cancels such a task.  The system
state below carries the two dicts of `ProfileDatabase` together with the
observable effect lists: group messages sent, pending sleep tasks, and
delete calls performed. -/

/-- A pending `schedule_listing_deletion` task: it will delete message
`message_id` once the clock reaches `fire_at`. -/
structure Task where
  message_id : Nat
  fire_at : Nat
  deriving DecidableEq, Repr

/-- State of the `bot.py` system: the `ProfileDatabase` dicts plus the
observable outbound effects. -/
structure Sys where
  profiles : Dict Profile
  active_listings : Dict ListingB
  sent_messages : List Nat
  pending : List Task
  deleted_messages : List Nat
  deriving DecidableEq, Repr

/-- Outcome of `availability_duration` as observed by the operator. -/
inductive PublishOutcome
  | posted (hours : Nat)
  | profileNotFound
  | groupNotConfigured
  deriving DecidableEq, Repr

/-- Embeds `bot.py` `availability_duration` (lines 750-798) together with
`ProfileDatabase.create_listing` (lines 76-87) and the task creation for
`schedule_listing_deletion`: no check for an existing listing is made — the
message is sent, the registry entry is overwritten and a fresh detached
sleep task is spawned.  `msg_id` is the message reference returned by the
send call. -/
def availability_duration (s : Sys) (user_id now hours msg_id : Nat)
    (targetConfigured : Bool) : Sys × PublishOutcome :=
  match dictGet s.profiles user_id with
  | none => (s, .profileNotFound)
  | some _ =>
    if targetConfigured = false then (s, .groupNotConfigured)
    else
      ({ s with
          active_listings := dictInsert s.active_listings user_id
            { message_id := msg_id,
              expires_at := now + hours * 3600,
              duration_hours := hours },
          sent_messages := s.sent_messages ++ [msg_id],
          pending := s.pending ++ [{ message_id := msg_id,
                                     fire_at := now + hours * 3600 }] },
       .posted hours)

/-- Embeds the firing of `schedule_listing_deletion` tasks (bot.py lines
800-808) up to instant `t`: every pending task whose sleep has elapsed
wakes, calls `delete_message` and completes; nothing else changes (the
fired task does not touch the registry — cleanup there is the lazy
eviction). -/
def fireDue (s : Sys) (t : Nat) : Sys :=
  { s with
    pending := s.pending.filter (fun tk => decide (t < tk.fire_at)),
    deleted_messages := s.deleted_messages ++
      ((s.pending.filter (fun tk => decide (tk.fire_at ≤ t))).map
        Task.message_id) }

/-- Embeds `bot.py` `ProfileDatabase.delete_profile` (lines 71-74): only
the profiles dict is touched; any active listing for the user stays in the
registry. -/
def ProfileDatabase.delete_profile (s : Sys) (user_id : Nat) : Sys :=
  { s with profiles := dictRemove s.profiles user_id }

/-! ### bot_simple.py: publish entry, profile deletion -/

/-- Outcome of `bot_simple.py` `mark_available`. -/
inductive MarkOutcome
  | unauthorized
  | createProfileFirst
  | durationPrompt
  deriving DecidableEq, Repr

/-- Embeds `bot_simple.py` `mark_available` (lines 332-358): admin guard,
then a profile check; without a committed profile the handler answers with
an alert and returns before touching any store or sending to the group. -/
def mark_available (admins : List String) (s : Sys) (user_id : Nat) :
    Sys × MarkOutcome :=
  if refusesSimple admins user_id then (s, .unauthorized)
  else
    match dictGet s.profiles user_id with
    | none => (s, .createProfileFirst)
    | some _ => (s, .durationPrompt)

/-- Outcome of `bot_simple.py` `delete_profile`. -/
inductive DeleteOutcome
  | unauthorized
  | deleted
  | noProfile
  deriving DecidableEq, Repr

/-- Embeds `bot_simple.py` `delete_profile` (lines 418-433) with
`ProfileDB.delete_profile` (lines 63-67) and `ProfileDB.delete_listing`
(lines 94-96): when a profile exists both the profile and the listing entry
are removed; otherwise nothing changes.  No pending deletion task is ever
cancelled (the source has no cancellation path). -/
def delete_profile (admins : List String) (s : Sys) (user_id : Nat) :
    Sys × DeleteOutcome :=
  if refusesSimple admins user_id then (s, .unauthorized)
  else if (dictGet s.profiles user_id).isSome then
    ({ s with
        profiles := dictRemove s.profiles user_id,
        active_listings := dictRemove s.active_listings user_id },
     .deleted)
  else (s, .noProfile)

/-! ### bot_simple.py: form dialogue steps -/

/-- The `ProfileStates` FSM of `bot_simple.py` (lines 33-48), plus
`cleared` for a dissolved session (`state.clear()`). -/
inductive BSStep
  | name
  | offer_types
  | about
  | contact_method
  | phone
  | email
  | social_links
  | rates
  | disclaimer
  | images
  | videos
  | preview
  | duration
  | cleared
  deriving DecidableEq, Repr

/-- Embeds `bot_simple.py` `offer_selected` (lines 167-196), already
stripped of the `offer_` payload tag by the dispatch filter: a non-"done"
choice appends one offering and stays in the choice state; "done" with an
empty selection answers an alert and leaves everything unchanged; "done"
with a non-empty selection advances to the about step. -/
def BotSimple.offer_selected (profile : Profile) (offer_type : String) :
    Profile × BSStep :=
  if offer_type ≠ "done" then
    ({ profile with offer_types := profile.offer_types ++ [offer_type] },
     .offer_types)
  else if profile.offer_types = [] then (profile, .offer_types)
  else (profile, .about)

/-- Runs a sequence of offering-choice callbacks through the aiogram
dispatch: `offer_selected` only fires while the FSM is in the
`offer_types` state; once the session has advanced, further callbacks of
this family are not delivered to it. -/
def BotSimple.runOffers : Profile × BSStep → List String → Profile × BSStep
  | s, [] => s
  | (p, st), c :: cs =>
    if st = BSStep.offer_types then
      BotSimple.runOffers (BotSimple.offer_selected p c) cs
    else
      BotSimple.runOffers (p, st) cs

/-- Embeds `bot_simple.py` `handle_disclaimer` (lines 291-318): records the
disclaimer unless the operator sent "skip", initialises the media lists,
then SAVES THE PROFILE into the repository before showing the
confirm/cancel preview, and moves the FSM to `preview`. -/
def BotSimple.handle_disclaimer (profiles : Dict Profile) (user_id : Nat)
    (profile : Profile) (text : String) : Dict Profile × BSStep :=
  let p1 :=
    if text.toLower ≠ "skip" then { profile with disclaimer := some text }
    else profile
  let p2 := { p1 with images := [], videos := [] }
  (dictInsert profiles user_id p2, .preview)

/-- Embeds `bot_simple.py` `profile_preview` (lines 320-330): whatever the
choice, the handler only edits the reply text and clears the session; the
repository is not touched (the profile was already saved by
`handle_disclaimer`). -/
def BotSimple.profile_preview (profiles : Dict Profile) (_data : String) :
    Dict Profile × BSStep :=
  (profiles, .cleared)

/-! ### main.py: the rates step of handle_text -/

/-- Embeds the `rates` branch of `main.py` `handle_text` (lines 282-304):
the profile is saved into the repository before the confirm/cancel preview
is shown; the returned string is the next value of `state['step']`. -/
def handle_text_rates (db : Database) (user_id : Nat) (profile : Profile)
    (text : String) : Database × String :=
  let p1 :=
    if text.toLower ≠ "skip" then { profile with rates := some text }
    else profile
  (db.save_profile user_id p1, "preview")

/-! ### bot.py: preview and media capture -/

/-- Result of a `ConversationHandler` step: the conversation either ended
or stays in some state. -/
inductive ConvOutcome
  | ended
  | stay
  deriving DecidableEq, Repr

/-- Embeds `bot.py` `profile_preview` (lines 690-717): `profile_confirm`
saves the assembled draft and ends; `profile_edit` and `profile_cancel`
end without touching the repository; any other payload leaves the
conversation in the preview state. -/
def Bot.profile_preview (profiles : Dict Profile) (user_id : Nat)
    (profile : Profile) (data : String) : Dict Profile × ConvOutcome :=
  if data = "profile_confirm" then
    (dictInsert profiles user_id profile, .ended)
  else if data = "profile_edit" then (profiles, .ended)
  else if data = "profile_cancel" then (profiles, .ended)
  else (profiles, .stay)

/-- The media-capture fragment of `bot.py`'s conversation states. -/
inductive BotStep
  | images
  | videos
  | preview
  deriving DecidableEq, Repr

/-- An inbound message during media capture. -/
inductive MsgIn
  | photoMsg (file_id : Nat)
  | videoMsg (file_id : Nat)
  | textMsg (text : String)
  deriving DecidableEq, Repr

/-- The reply a media handler sends back. -/
inductive MediaReply
  | advanced
  | saved
  | capacityNotice
  | sendOrDone
  deriving DecidableEq, Repr

/-- Embeds `bot.py` `profile_images` (lines 621-648): "done" advances to
video capture (initialising the video list); a photo is appended while
fewer than 10 are stored and otherwise answered with the capacity notice,
the state staying put; anything else re-prompts. -/
def Bot.profile_images (profile : Profile) (inp : MsgIn) :
    Profile × BotStep × MediaReply :=
  match inp with
  | .textMsg t =>
    if t.toLower = "done" then
      ({ profile with videos := [] }, .videos, .advanced)
    else (profile, .images, .sendOrDone)
  | .photoMsg fid =>
    if profile.images.length < 10 then
      ({ profile with images := profile.images ++ [fid] }, .images, .saved)
    else (profile, .images, .capacityNotice)
  | .videoMsg _ => (profile, .images, .sendOrDone)

/-- Embeds `bot.py` `profile_videos` (lines 650-688): "done" advances to the
preview; a video is appended while fewer than 4 are stored and otherwise
answered with the capacity notice, the state staying put; anything else
re-prompts. -/
def Bot.profile_videos (profile : Profile) (inp : MsgIn) :
    Profile × BotStep × MediaReply :=
  match inp with
  | .textMsg t =>
    if t.toLower = "done" then (profile, .preview, .advanced)
    else (profile, .videos, .sendOrDone)
  | .videoMsg fid =>
    if profile.videos.length < 4 then
      ({ profile with videos := profile.videos ++ [fid] }, .videos, .saved)
    else (profile, .videos, .capacityNotice)
  | .photoMsg _ => (profile, .videos, .sendOrDone)

/-- One dispatched step of the media-capture machine.  The
`ConversationHandler` registers only PHOTO and TEXT handlers for the image
state and only VIDEO and TEXT handlers for the video state (bot.py lines
898-905), so the other media kind is not delivered and changes nothing. -/
def Bot.mediaStep : Profile × BotStep → MsgIn → Profile × BotStep
  | (p, .images), .videoMsg _ => (p, .images)
  | (p, .images), inp =>
    ((Bot.profile_images p inp).1, (Bot.profile_images p inp).2.1)
  | (p, .videos), .photoMsg _ => (p, .videos)
  | (p, .videos), inp =>
    ((Bot.profile_videos p inp).1, (Bot.profile_videos p inp).2.1)
  | (p, .preview), _ => (p, .preview)

/-- A whole inbound sequence folded through the media machine. -/
def Bot.runMedia (s : Profile × BotStep) (inputs : List MsgIn) :
    Profile × BotStep :=
  inputs.foldl Bot.mediaStep s

/-- A listing record as stored by `bot_simple.py`'s
`ProfileDB.create_listing` (lines 69-76): `expires_at`, `duration_hours`,
`created_at`. -/
structure ListingS where
  expires_at : Nat
  duration_hours : Nat
  created_at : Nat
  deriving DecidableEq, Repr

/-- Embeds `bot_simple.py` `ProfileDB.create_listing` (lines 69-76):
`expires_at = now + timedelta(hours=duration_hours)`. -/
def ProfileDB.create_listing (active_listings : Dict ListingS)
    (user_id now duration_hours : Nat) : Dict ListingS :=
  dictInsert active_listings user_id
    { expires_at := now + duration_hours * 3600,
      duration_hours := duration_hours,
      created_at := now }

/-- The discipline under which each scheduled retraction deletes its group
message at most once: pending tasks carry pairwise distinct message ids,
the performed deletions are pairwise distinct, and no pending task targets
an already-deleted message. -/
def AtMostOnce (s : Sys) : Prop :=
  (s.pending.map Task.message_id).Nodup ∧
  s.deleted_messages.Nodup ∧
  ∀ m ∈ s.pending.map Task.message_id, m ∉ s.deleted_messages

/-- The at-most-once discipline is decidable on concrete states. -/
instance (s : Sys) : Decidable (AtMostOnce s) :=
  inferInstanceAs (Decidable ((s.pending.map Task.message_id).Nodup ∧
    s.deleted_messages.Nodup ∧
    ∀ m ∈ s.pending.map Task.message_id, m ∉ s.deleted_messages))

/-- Key-uniqueness is decidable, so concrete stores can be checked by
evaluation. -/
instance {α : Type} (d : Dict α) : Decidable (KeysNodup d) :=
  inferInstanceAs (Decidable (dictKeys d).Nodup)

/-- The empty system state (fresh process). -/
def emptySys : Sys :=
  { profiles := [], active_listings := [], sent_messages := [],
    pending := [], deleted_messages := [] }

/-- A system whose only state is one committed (default-valued) profile
for `user_id`. -/
def sysWithProfile (user_id : Nat) : Sys :=
  { emptySys with profiles := [(user_id, {})] }

/-- A `main.py` database holding one profile and one two-hour listing for
user 1 (created at time 0). -/
def dbWithProfile : Database :=
  { profiles := [(1, {})],
    listings := [(1, { created := 0, expires := 7200, hours := 2 })] }

/-! ### Basic dict lemmas -/

theorem dictGet_insert_self {α : Type} (d : Dict α) (k : Nat) (v : α) :
    dictGet (dictInsert d k v) k = some v := by
  induction d with
  | nil => simp [dictInsert, dictGet]
  | cons p rest ih =>
    by_cases h : p.1 = k
    · simp [dictInsert, dictGet, h]
    · simp [dictInsert, dictGet, h, ih]

theorem dictGet_insert_ne {α : Type} (d : Dict α) (k k' : Nat) (v : α)
    (h : k' ≠ k) : dictGet (dictInsert d k v) k' = dictGet d k' := by
  have hkk : ¬ k = k' := fun hh => h hh.symm
  induction d with
  | nil => simp [dictInsert, dictGet, hkk]
  | cons p rest ih =>
    by_cases hp : p.1 = k
    · simp [dictInsert, dictGet, hp, hkk]
    · simp [dictInsert, dictGet, hp, ih]

theorem dictGet_remove_self {α : Type} (d : Dict α) (k : Nat) :
    dictGet (dictRemove d k) k = none := by
  induction d with
  | nil => rfl
  | cons p rest ih =>
    by_cases h : p.1 = k
    · simpa [dictRemove, List.filter_cons, h] using ih
    · simpa [dictRemove, List.filter_cons, h, dictGet] using ih

theorem dictGet_remove_ne {α : Type} (d : Dict α) (k k' : Nat) (h : k' ≠ k) :
    dictGet (dictRemove d k) k' = dictGet d k' := by
  induction d with
  | nil => rfl
  | cons p rest ih =>
    by_cases hp : p.1 = k
    · have hkk : ¬ k = k' := fun hh => h hh.symm
      simpa [dictRemove, List.filter_cons, hp, dictGet, hkk] using ih
    · by_cases hq : p.1 = k'
      · simp [dictRemove, List.filter_cons, hp, dictGet, hq, h]
      · simpa [dictRemove, List.filter_cons, hp, dictGet, hq] using ih

theorem dictKeys_cons {α : Type} (p : Nat × α) (rest : Dict α) :
    dictKeys (p :: rest) = p.1 :: dictKeys rest := rfl

theorem dictKeys_insert_mem {α : Type} (d : Dict α) (k : Nat) (v : α)
    (h : k ∈ dictKeys d) : dictKeys (dictInsert d k v) = dictKeys d := by
  induction d with
  | nil => simp [dictKeys] at h
  | cons p rest ih =>
    by_cases hp : p.1 = k
    · simp [dictInsert, hp, dictKeys]
    · have hmem : k ∈ dictKeys rest := by
        have h' : k = p.1 ∨ k ∈ dictKeys rest := by
          simpa [dictKeys_cons] using h
        rcases h' with h1 | h2
        · exact absurd h1.symm hp
        · exact h2
      calc dictKeys (dictInsert (p :: rest) k v)
          = p.1 :: dictKeys (dictInsert rest k v) := by
            simp [dictInsert, hp, dictKeys]
        _ = p.1 :: dictKeys rest := by rw [ih hmem]
        _ = dictKeys (p :: rest) := rfl

theorem dictKeys_insert_not_mem {α : Type} (d : Dict α) (k : Nat) (v : α)
    (h : k ∉ dictKeys d) : dictKeys (dictInsert d k v) = dictKeys d ++ [k] := by
  induction d with
  | nil => simp [dictInsert, dictKeys]
  | cons p rest ih =>
    have hne : ¬ p.1 = k := by
      intro hcontra
      exact h (by simp [dictKeys_cons, hcontra])
    have hrest : k ∉ dictKeys rest := by
      intro hcontra
      exact h (by simp [dictKeys_cons]; right; exact hcontra)
    calc dictKeys (dictInsert (p :: rest) k v)
        = p.1 :: dictKeys (dictInsert rest k v) := by
          simp [dictInsert, hne, dictKeys]
      _ = p.1 :: (dictKeys rest ++ [k]) := by rw [ih hrest]
      _ = dictKeys (p :: rest) ++ [k] := by simp [dictKeys_cons]

theorem keysNodup_insert {α : Type} (d : Dict α) (k : Nat) (v : α)
    (h : KeysNodup d) : KeysNodup (dictInsert d k v) := by
  by_cases hmem : k ∈ dictKeys d
  · unfold KeysNodup
    rw [dictKeys_insert_mem d k v hmem]
    exact h
  · unfold KeysNodup
    rw [dictKeys_insert_not_mem d k v hmem]
    simpa [List.nodup_append] using ⟨h, fun hc => hmem hc⟩

theorem keysNodup_remove {α : Type} (d : Dict α) (k : Nat)
    (h : KeysNodup d) : KeysNodup (dictRemove d k) := by
  unfold KeysNodup dictKeys dictRemove at *
  exact (List.Sublist.map Prod.fst (List.filter_sublist d)).nodup h

/-- Under key-uniqueness a dict holds at most one entry per key. -/
theorem entries_at_most_one {α : Type} (d : Dict α) (u : Nat)
    (h : KeysNodup d) :
    (d.filter (fun p => decide (p.1 = u))).length ≤ 1 := by
  induction d with
  | nil => simp
  | cons p rest ih =>
    unfold KeysNodup dictKeys at h
    simp only [List.map_cons, List.nodup_cons] at h
    by_cases hp : p.1 = u
    · have hnil : rest.filter (fun p => decide (p.1 = u)) = [] := by
        apply List.filter_eq_nil_iff.mpr
        intro q hq hdec
        have hq1 : q.1 = u := by simpa using hdec
        exact h.1 (by simpa [hq1, ← hp] using List.mem_map_of_mem Prod.fst hq)
      simp [List.filter_cons, hp, hnil]
    · simpa [List.filter_cons, hp] using ih h.2

theorem mem_of_dictGet_eq_some {α : Type} (d : Dict α) (k : Nat) (v : α)
    (h : dictGet d k = some v) : (k, v) ∈ d := by
  induction d with
  | nil => simp [dictGet] at h
  | cons p rest ih =>
    by_cases hp : p.1 = k
    · have hv : p.2 = v := by simpa [dictGet, hp] using h
      have hpkv : p = (k, v) := by
        cases p
        simp_all
      rw [hpkv]
      exact List.mem_cons_self _ _
    · have h' : dictGet rest k = some v := by simpa [dictGet, hp] using h
      exact List.mem_cons_of_mem p (ih h')

/-- Deleting a list of keys in turn filters out every entry bearing one of
them (`dictRemove` is filter-based, so this holds unconditionally). -/
theorem foldl_dictRemove_eq_filter {α : Type} (ks : List Nat) (d : Dict α) :
    ks.foldl (fun l u => dictRemove l u) d
      = d.filter (fun p => decide (p.1 ∉ ks)) := by
  induction ks generalizing d with
  | nil => simp
  | cons k ks ih =>
    rw [List.foldl_cons, ih]
    unfold dictRemove
    rw [List.filter_filter]
    apply List.filter_congr
    intro p _
    by_cases h1 : p.1 = k <;> by_cases h2 : p.1 ∈ ks <;> simp [h1, h2]

/-- After `get_active_listings`, the registry keeps exactly the entries
whose expiry is still in the future (lazy eviction), provided keys are
unique as in a Python dict. -/
theorem get_active_listings_registry (db : Database) (now : Nat)
    (h : KeysNodup db.listings) :
    (db.get_active_listings now).2.listings
      = db.listings.filter (fun p => decide (now < p.2.expires)) := by
  have h' : (db.listings.map Prod.fst).Nodup := h
  unfold Database.get_active_listings
  simp only
  rw [foldl_dictRemove_eq_filter]
  apply List.filter_congr
  intro p hp
  apply decide_eq_decide.mpr
  by_cases hactive : now < p.2.expires
  · apply iff_of_true ?_ hactive
    intro hmem
    rcases List.mem_map.mp hmem with ⟨q, hq, hq1⟩
    rcases List.mem_filter.mp hq with ⟨hqmem, hqexp⟩
    have hqp : q = p := List.inj_on_of_nodup_map h' hqmem hp hq1
    rw [hqp] at hqexp
    simp [hactive] at hqexp
  · apply iff_of_false ?_ hactive
    apply not_not_intro
    apply List.mem_map_of_mem
    exact List.mem_filter.mpr ⟨hp, by simpa using hactive⟩

/-- A dict with unique keys that resolves a key holds exactly one entry
for it. -/
theorem entries_exactly_one {α : Type} (d : Dict α) (u : Nat) (v : α)
    (h : KeysNodup d) (hget : dictGet d u = some v) :
    (d.filter (fun p => decide (p.1 = u))).length = 1 := by
  have hle := entries_at_most_one d u h
  have hmem : (u, v) ∈ d.filter (fun p => decide (p.1 = u)) :=
    List.mem_filter.mpr ⟨mem_of_dictGet_eq_some d u v hget, by simp⟩
  have hpos : 0 < (d.filter (fun p => decide (p.1 = u))).length :=
    List.length_pos_of_mem hmem
  omega

/-! ### Claims -/

/-- C3: for every registry state and query instant `now`,
`get_active_listings` returns exactly the listings with `expires > now`
(a listing created with duration `D = hours * 3600` seconds is returned
iff `now < created + D`), and as a side effect evicts from the registry
every listing with `expires <= now`, keeping exactly the still-active
entries. -/
theorem c3_active_listings_exact (db : Database)
    (now user_id now0 hours : Nat) (h : KeysNodup db.listings) :
    (∀ p : Nat × ListingM,
        p ∈ (db.get_active_listings now).1 ↔
          p ∈ db.listings ∧ now < p.2.expires) ∧
    ((db.get_active_listings now).2.listings
        = db.listings.filter (fun p => decide (now < p.2.expires))) ∧
    (∀ q ∈ (db.get_active_listings now).2.listings, now < q.2.expires) ∧
    (((user_id, { created := now0, expires := now0 + hours * 3600,
                  hours := hours }) : Nat × ListingM)
        ∈ ((db.create_listing user_id now0 hours).get_active_listings now).1
      ↔ now < now0 + hours * 3600) := by
  refine ⟨?_, ?_, ?_, ?_⟩
  · intro p
    unfold Database.get_active_listings
    simp [List.mem_filter]
  · exact get_active_listings_registry db now h
  · intro q hq
    rw [get_active_listings_registry db now h] at hq
    simpa using (List.mem_filter.mp hq).2
  · have hmem : (user_id, ListingM.mk now0 (now0 + hours * 3600) hours)
        ∈ (db.create_listing user_id now0 hours).listings := by
      apply mem_of_dictGet_eq_some
      exact dictGet_insert_self db.listings user_id _
    unfold Database.get_active_listings
    simp [List.mem_filter, hmem]

/-- Closed instance of `c3_active_listings_exact`: a two-hour listing
created at time 0 over a singleton registry, queried at its exact
expiration instant 7200. -/
theorem c3_active_listings_exact_witness :
    KeysNodup ([(1, { created := 0, expires := 7200, hours := 2 })] :
      Dict ListingM) ∧
    ((∀ p : Nat × ListingM,
        p ∈ (Database.get_active_listings
              { profiles := [],
                listings := [(1, { created := 0, expires := 7200, hours := 2 })] }
              7200).1 ↔
          p ∈ [(1, { created := 0, expires := 7200, hours := 2 })] ∧
            7200 < p.2.expires) ∧
    ((Database.get_active_listings
          { profiles := [],
            listings := [(1, { created := 0, expires := 7200, hours := 2 })] }
          7200).2.listings
        = List.filter (fun p => decide (7200 < p.2.expires))
            [(1, { created := 0, expires := 7200, hours := 2 })]) ∧
    (∀ q ∈ (Database.get_active_listings
          { profiles := [],
            listings := [(1, { created := 0, expires := 7200, hours := 2 })] }
          7200).2.listings, 7200 < q.2.expires) ∧
    (((5, { created := 3600, expires := 3600 + 2 * 3600, hours := 2 }) :
          Nat × ListingM)
        ∈ ((Database.create_listing
              { profiles := [],
                listings := [(1, { created := 0, expires := 7200, hours := 2 })] }
              5 3600 2).get_active_listings 7200).1
      ↔ 7200 < 3600 + 2 * 3600)) :=
  ⟨by decide,
   c3_active_listings_exact
     { profiles := [],
       listings := [(1, { created := 0, expires := 7200, hours := 2 })] }
     7200 5 3600 2 (by decide)⟩

/-- C4: a listing created by the publish action stores
`expires = created + duration` (duration in seconds, `hours * 3600`), in
`main.py`'s and `bot_simple.py`'s registries alike, and every registry
operation preserves key-uniqueness, so the registry holds at most one
listing per `user_id` at every moment. -/
theorem c4_listing_invariants (db : Database) (sl : Dict ListingS)
    (user_id now hours u2 t : Nat) (h : KeysNodup db.listings)
    (hs : KeysNodup sl) :
    (dictGet (db.create_listing user_id now hours).listings user_id
        = some { created := now, expires := now + hours * 3600,
                 hours := hours }) ∧
    (∀ ℓ : ListingM,
        dictGet (db.create_listing user_id now hours).listings user_id
          = some ℓ → ℓ.expires = ℓ.created + hours * 3600) ∧
    (dictGet (ProfileDB.create_listing sl user_id now hours) user_id
        = some { expires_at := now + hours * 3600, duration_hours := hours,
                 created_at := now }) ∧
    (∀ ℓ : ListingS,
        dictGet (ProfileDB.create_listing sl user_id now hours) user_id
          = some ℓ → ℓ.expires_at = ℓ.created_at + hours * 3600) ∧
    KeysNodup (db.create_listing user_id now hours).listings ∧
    KeysNodup (ProfileDB.create_listing sl user_id now hours) ∧
    KeysNodup (db.delete_profile u2).1.listings ∧
    KeysNodup (db.get_active_listings t).2.listings ∧
    (((db.create_listing user_id now hours).listings.filter
        (fun p => decide (p.1 = u2))).length ≤ 1) := by
  have hcreate : KeysNodup (db.create_listing user_id now hours).listings :=
    keysNodup_insert db.listings user_id _ h
  refine ⟨?_, ?_, ?_, ?_, hcreate, keysNodup_insert sl user_id _ hs, ?_, ?_, ?_⟩
  · exact dictGet_insert_self db.listings user_id _
  · intro ℓ hℓ
    unfold Database.create_listing at hℓ
    simp only at hℓ
    rw [dictGet_insert_self db.listings user_id _] at hℓ
    cases hℓ
    rfl
  · exact dictGet_insert_self sl user_id _
  · intro ℓ hℓ
    unfold ProfileDB.create_listing at hℓ
    rw [dictGet_insert_self sl user_id _] at hℓ
    cases hℓ
    rfl
  · unfold Database.delete_profile
    split
    · exact keysNodup_remove db.listings u2 h
    · exact h
  · rw [get_active_listings_registry db t h]
    unfold KeysNodup dictKeys
    exact (List.Sublist.map Prod.fst (List.filter_sublist db.listings)).nodup h
  · exact entries_at_most_one _ u2 hcreate

/-- Closed instance of `c4_listing_invariants` over concrete
two-entry stores. -/
theorem c4_listing_invariants_witness :
    KeysNodup ([(7, { created := 0, expires := 3600, hours := 1 })] :
      Dict ListingM) ∧
    KeysNodup ([] : Dict ListingS) ∧
    (dictGet (Database.create_listing
          { profiles := [],
            listings := [(7, { created := 0, expires := 3600, hours := 1 })] }
          7 100 2).listings 7
        = some { created := 100, expires := 100 + 2 * 3600, hours := 2 }) :=
  ⟨by decide, by decide,
   (c4_listing_invariants
      { profiles := [],
        listings := [(7, { created := 0, expires := 3600, hours := 1 })] }
      [] 7 100 2 7 50 (by decide) (by decide)).1⟩

/-- C9: without a committed profile, the publish entry points of
`bot_simple.py` (`mark_available`) and `bot.py` (`availability_duration`)
report the not-found failure and leave the whole system state untouched:
nothing is sent to the group and no listing is created. -/
theorem c9_publish_without_profile (admins : List String) (s : Sys)
    (user_id now hours msg_id : Nat) (tc : Bool)
    (hauth : refusesSimple admins user_id = false)
    (hnone : dictGet s.profiles user_id = none) :
    mark_available admins s user_id = (s, .createProfileFirst) ∧
    availability_duration s user_id now hours msg_id tc
      = (s, .profileNotFound) := by
  constructor
  · simp [mark_available, hauth, hnone]
  · simp [availability_duration, hnone]

/-- Closed instance of `c9_publish_without_profile`: a user with no
profile on the empty system. -/
theorem c9_publish_without_profile_witness :
    refusesSimple [] 3 = false ∧
    dictGet emptySys.profiles 3 = none ∧
    mark_available [] emptySys 3 = (emptySys, .createProfileFirst) :=
  ⟨by decide, by decide,
   (c9_publish_without_profile [] emptySys 3 0 2 100 true (by decide)
      (by decide)).1⟩

/-- C10: when the configured approved-admin set is empty, every gated
entry point treats every user as authorized — the start menus are shown,
`is_approved_admin` accepts, and neither the publish entry nor the
profile-deletion entry answers with the unauthorized refusal. -/
theorem c10_empty_admin_set_authorizes_all (user_id : Nat) (s : Sys) :
    is_approved_admin [] user_id = true ∧
    refusesSimple [] user_id = false ∧
    refusesMain [] user_id = false ∧
    handle_start [] user_id = true ∧
    cmd_start [] user_id = true ∧
    (mark_available [] s user_id).2 ≠ MarkOutcome.unauthorized ∧
    (delete_profile [] s user_id).2 ≠ DeleteOutcome.unauthorized := by
  refine ⟨rfl, rfl, rfl, rfl, rfl, ?_, ?_⟩
  · cases h : dictGet s.profiles user_id <;>
      simp [mark_available, refusesSimple, h]
  · by_cases hp : (dictGet s.profiles user_id).isSome <;>
      simp [delete_profile, refusesSimple, hp]

/-! ### C5: the offering-selection loop -/

/-- Dispatch distributes over concatenated callback sequences. -/
theorem runOffers_append (s : Profile × BSStep) (xs ys : List String) :
    BotSimple.runOffers s (xs ++ ys)
      = BotSimple.runOffers (BotSimple.runOffers s xs) ys := by
  induction xs generalizing s with
  | nil => rfl
  | cons c cs ih =>
    rcases s with ⟨p, st⟩
    rw [List.cons_append, BotSimple.runOffers, BotSimple.runOffers]
    by_cases hst : st = BSStep.offer_types
    · simp only [hst, if_pos rfl]
      exact ih _
    · simp only [if_neg hst]
      exact ih _

/-- A run of non-"done" selections stays in the choice state and appends
the selections, in order, to the draft's offerings. -/
theorem runOffers_all_non_done (profile : Profile) (sels : List String)
    (h : ∀ c ∈ sels, c ≠ "done") :
    BotSimple.runOffers (profile, .offer_types) sels
      = ({ profile with offer_types := profile.offer_types ++ sels },
         .offer_types) := by
  induction sels generalizing profile with
  | nil => simp [BotSimple.runOffers]
  | cons c cs ih =>
    have hc : c ≠ "done" := h c (by simp)
    rw [BotSimple.runOffers]
    simp only [if_pos rfl]
    rw [BotSimple.offer_selected, if_pos hc]
    rw [ih _ (fun x hx => h x (by simp [hx]))]
    simp

/-- C5: every non-"done" selection appends exactly one offering and
returns control to the choice state; a trailing "done" advances only when
at least one offering was selected and otherwise changes nothing — so
after any run of non-"done" selections followed by "done", the draft's
offerings count equals the number of selections made. -/
theorem c5_offering_loop_count (draft : Profile) (sels : List String)
    (c : String) (h0 : draft.offer_types = [])
    (h : ∀ x ∈ sels, x ≠ "done") (hc : c ≠ "done") :
    (BotSimple.offer_selected draft c
      = ({ draft with offer_types := draft.offer_types ++ [c] },
         .offer_types)) ∧
    (BotSimple.offer_selected draft "done" = (draft, .offer_types)) ∧
    ((BotSimple.runOffers (draft, .offer_types)
        (sels ++ ["done"])).1.offer_types.length = sels.length) ∧
    ((BotSimple.runOffers (draft, .offer_types) (sels ++ ["done"])).2
      = if sels = [] then BSStep.offer_types else BSStep.about) := by
  have hrun := runOffers_all_non_done draft sels h
  have hdone : BotSimple.runOffers (draft, .offer_types) (sels ++ ["done"])
      = BotSimple.offer_selected
          { draft with offer_types := draft.offer_types ++ sels } "done" := by
    rw [runOffers_append, hrun]
    rw [BotSimple.runOffers]
    simp only [if_pos rfl]
    rfl
  refine ⟨?_, ?_, ?_, ?_⟩
  · rw [BotSimple.offer_selected, if_pos hc]
  · rw [BotSimple.offer_selected]
    simp [h0]
  · rw [hdone, BotSimple.offer_selected]
    rcases sels with _ | ⟨x, xs⟩
    · simp [h0]
    · simp [h0]
  · rw [hdone, BotSimple.offer_selected]
    rcases sels with _ | ⟨x, xs⟩
    · simp [h0]
    · simp [h0]

/-- Closed instance of `c5_offering_loop_count`: two selections then
"done". -/
theorem c5_offering_loop_count_witness :
    (({} : Profile).offer_types = []) ∧
    ((BotSimple.runOffers ({}, .offer_types)
        (["in_person", "custom"] ++ ["done"])).1.offer_types.length
      = (["in_person", "custom"] : List String).length) :=
  ⟨rfl,
   (c5_offering_loop_count {} ["in_person", "custom"] "facetime" rfl
      (by intro x hx; fin_cases hx <;> decide) (by decide)).2.2.1⟩

/-! ### C6: media capture caps -/

/-- One dispatched media step keeps both collections within their caps. -/
theorem mediaStep_bounds (s : Profile × BotStep) (inp : MsgIn)
    (hI : s.1.images.length ≤ 10) (hV : s.1.videos.length ≤ 4) :
    (Bot.mediaStep s inp).1.images.length ≤ 10 ∧
    (Bot.mediaStep s inp).1.videos.length ≤ 4 := by
  rcases s with ⟨p, st⟩
  rcases st with _ | _ | _ <;> rcases inp with fid | fid | t <;>
    simp only [Bot.mediaStep, Bot.profile_images, Bot.profile_videos] at *
  · split
    · rename_i hlt
      refine ⟨?_, hV⟩
      show (p.images ++ [fid]).length ≤ 10
      rw [List.length_append]
      exact hlt
    · exact ⟨hI, hV⟩
  · exact ⟨hI, hV⟩
  · split
    · exact ⟨hI, by simp⟩
    · exact ⟨hI, hV⟩
  · exact ⟨hI, hV⟩
  · split
    · rename_i hlt
      refine ⟨hI, ?_⟩
      show (p.videos ++ [fid]).length ≤ 4
      rw [List.length_append]
      exact hlt
    · exact ⟨hI, hV⟩
  · split
    · exact ⟨hI, hV⟩
    · exact ⟨hI, hV⟩
  · exact ⟨hI, hV⟩
  · exact ⟨hI, hV⟩
  · exact ⟨hI, hV⟩

/-- Any dispatched media sequence keeps both collections within their
caps. -/
theorem runMedia_bounds (s : Profile × BotStep) (inputs : List MsgIn)
    (hI : s.1.images.length ≤ 10) (hV : s.1.videos.length ≤ 4) :
    (Bot.runMedia s inputs).1.images.length ≤ 10 ∧
    (Bot.runMedia s inputs).1.videos.length ≤ 4 := by
  induction inputs generalizing s with
  | nil => exact ⟨hI, hV⟩
  | cons i is ih =>
    have hstep := mediaStep_bounds s i hI hV
    exact ih (Bot.mediaStep s i) hstep.1 hstep.2

/-- C6: a photo sent at the 10-image cap (resp. a video at the 4-video
cap) is answered with the capacity notice and leaves both the draft and
the state unchanged, and under every input sequence the image collection
never exceeds 10 elements nor the video collection 4. -/
theorem c6_media_caps (p0 : Profile) (st0 : BotStep) (inputs : List MsgIn)
    (hI : p0.images.length ≤ 10) (hV : p0.videos.length ≤ 4) :
    (∀ (p : Profile) (fid : Nat), p.images.length = 10 →
        Bot.profile_images p (.photoMsg fid)
          = (p, .images, .capacityNotice)) ∧
    (∀ (p : Profile) (fid : Nat), p.videos.length = 4 →
        Bot.profile_videos p (.videoMsg fid)
          = (p, .videos, .capacityNotice)) ∧
    (Bot.runMedia (p0, st0) inputs).1.images.length ≤ 10 ∧
    (Bot.runMedia (p0, st0) inputs).1.videos.length ≤ 4 := by
  refine ⟨?_, ?_, ?_, ?_⟩
  · intro p fid hcap
    rw [Bot.profile_images]
    simp [hcap]
  · intro p fid hcap
    rw [Bot.profile_videos]
    simp [hcap]
  · exact (runMedia_bounds (p0, st0) inputs hI hV).1
  · exact (runMedia_bounds (p0, st0) inputs hI hV).2

/-! ### C1: publishing while a listing is active -/

/-- Field-level description of a successful `availability_duration` call
(profile present, target group configured). -/
theorem availability_duration_fields (s : Sys) (u now hours m : Nat)
    (prof : Profile) (hp : dictGet s.profiles u = some prof) :
    (availability_duration s u now hours m true).2
      = PublishOutcome.posted hours ∧
    (availability_duration s u now hours m true).1.profiles = s.profiles ∧
    (availability_duration s u now hours m true).1.active_listings
      = dictInsert s.active_listings u
          (ListingB.mk m (now + hours * 3600) hours) ∧
    (availability_duration s u now hours m true).1.sent_messages
      = s.sent_messages ++ [m] ∧
    (availability_duration s u now hours m true).1.pending
      = s.pending ++ [Task.mk m (now + hours * 3600)] ∧
    (availability_duration s u now hours m true).1.deleted_messages
      = s.deleted_messages := by
  unfold availability_duration
  rw [hp]
  exact ⟨rfl, rfl, rfl, rfl, rfl, rfl⟩

/-- C1 counterexample: on a system holding one committed profile, a first
publish (time 0, 2 hours, message 100) followed by a second publish well
before expiration (time 1, message 101) is NOT rejected — it reports
success and a second outbound message is sent to the group. -/
theorem c1_second_publish_counterexample :
    ((availability_duration
        (availability_duration (sysWithProfile 1) 1 0 2 100 true).1
        1 1 2 101 true).2 = PublishOutcome.posted 2) ∧
    ((availability_duration
        (availability_duration (sysWithProfile 1) 1 0 2 100 true).1
        1 1 2 101 true).1.sent_messages = [100, 101]) := by decide

/-- C1 (amended): a second publish before expiration is not refused: it
reports success, sends a second outbound message, and overwrites the
user's registry entry in place — so the registry afterwards still reports
exactly one entry for that user, now carrying the second listing. -/
theorem c1_second_publish_overwrites (s : Sys)
    (user_id now1 now2 hours1 hours2 m1 m2 : Nat)
    (hprof : (dictGet s.profiles user_id).isSome = true)
    (hnodup : KeysNodup s.active_listings) :
    ((availability_duration
        (availability_duration s user_id now1 hours1 m1 true).1
        user_id now2 hours2 m2 true).2 = PublishOutcome.posted hours2) ∧
    ((availability_duration
        (availability_duration s user_id now1 hours1 m1 true).1
        user_id now2 hours2 m2 true).1.sent_messages
      = s.sent_messages ++ [m1] ++ [m2]) ∧
    (dictGet (availability_duration
        (availability_duration s user_id now1 hours1 m1 true).1
        user_id now2 hours2 m2 true).1.active_listings user_id
      = some (ListingB.mk m2 (now2 + hours2 * 3600) hours2)) ∧
    KeysNodup (availability_duration
        (availability_duration s user_id now1 hours1 m1 true).1
        user_id now2 hours2 m2 true).1.active_listings ∧
    (((availability_duration
        (availability_duration s user_id now1 hours1 m1 true).1
        user_id now2 hours2 m2 true).1.active_listings.filter
          (fun p => decide (p.1 = user_id))).length = 1) := by
  obtain ⟨prof, hp⟩ := Option.isSome_iff_exists.mp hprof
  have h1 := availability_duration_fields s user_id now1 hours1 m1 prof hp
  have hp2 : dictGet
      (availability_duration s user_id now1 hours1 m1 true).1.profiles
      user_id = some prof := by
    rw [h1.2.1]
    exact hp
  have h2 := availability_duration_fields
    (availability_duration s user_id now1 hours1 m1 true).1
    user_id now2 hours2 m2 prof hp2
  have hal : (availability_duration
      (availability_duration s user_id now1 hours1 m1 true).1
      user_id now2 hours2 m2 true).1.active_listings
      = dictInsert
          (dictInsert s.active_listings user_id
            (ListingB.mk m1 (now1 + hours1 * 3600) hours1))
          user_id (ListingB.mk m2 (now2 + hours2 * 3600) hours2) := by
    rw [h2.2.2.1, h1.2.2.1]
  have hnd : KeysNodup (availability_duration
      (availability_duration s user_id now1 hours1 m1 true).1
      user_id now2 hours2 m2 true).1.active_listings := by
    rw [hal]
    exact keysNodup_insert _ user_id _ (keysNodup_insert _ user_id _ hnodup)
  refine ⟨h2.1, ?_, ?_, hnd, ?_⟩
  · rw [h2.2.2.2.1, h1.2.2.2.1]
  · rw [hal]
    exact dictGet_insert_self _ user_id _
  · apply entries_exactly_one _ user_id
      (ListingB.mk m2 (now2 + hours2 * 3600) hours2) hnd
    rw [hal]
    exact dictGet_insert_self _ user_id _

/-- Closed instance of `c1_second_publish_overwrites`: publish twice for
user 1; the registry holds exactly the second listing. -/
theorem c1_second_publish_overwrites_witness :
    ((dictGet (sysWithProfile 1).profiles 1).isSome = true) ∧
    KeysNodup (sysWithProfile 1).active_listings ∧
    (dictGet (availability_duration
        (availability_duration (sysWithProfile 1) 1 0 2 100 true).1
        1 1 2 101 true).1.active_listings 1
      = some (ListingB.mk 101 (1 + 2 * 3600) 2)) :=
  ⟨by decide, by decide,
   (c1_second_publish_overwrites (sysWithProfile 1) 1 0 1 2 2 100 101
      (by decide) (by decide)).2.2.1⟩

/-! ### C2: commit-on-confirm at the preview step -/

/-- C2 counterexample: in `bot_simple.py`, running the disclaimer step on
an empty repository and then choosing cancel at the preview leaves a
profile stored for the user — the repository is not unchanged. -/
theorem c2_cancel_counterexample :
    dictGet (BotSimple.profile_preview
        (BotSimple.handle_disclaimer [] 1 { name := "Alex" } "none").1
        "profile_cancel").1 1
      ≠ none := by decide

/-- C2 (amended): in `bot.py` the draft is committed exactly on confirm at
the preview and cancel leaves the repository unchanged; in
`bot_simple.py` and `main.py`, however, the assembled draft is committed
already at the disclaimer (resp. rates) step, before the preview, so
cancel at the preview leaves the freshly saved profile in the
repository. -/
theorem c2_preview_commit (profiles : Dict Profile) (db : Database)
    (user_id : Nat) (draft : Profile) (text : String) :
    ((Bot.profile_preview profiles user_id draft "profile_confirm").1
      = dictInsert profiles user_id draft) ∧
    ((Bot.profile_preview profiles user_id draft "profile_confirm").2
      = ConvOutcome.ended) ∧
    ((Bot.profile_preview profiles user_id draft "profile_cancel").1
      = profiles) ∧
    ((BotSimple.profile_preview
        (BotSimple.handle_disclaimer profiles user_id draft text).1
        "profile_cancel").1
      = (BotSimple.handle_disclaimer profiles user_id draft text).1) ∧
    ((dictGet (BotSimple.handle_disclaimer profiles user_id draft text).1
        user_id).isSome = true) ∧
    ((handle_text_rates db user_id draft text).1.profiles
      = dictInsert db.profiles user_id
          (if text.toLower ≠ "skip" then { draft with rates := some text }
           else draft)) := by
  refine ⟨rfl, rfl, rfl, rfl, ?_, rfl⟩
  show (dictGet (dictInsert profiles user_id _) user_id).isSome = true
  rw [dictGet_insert_self]
  rfl

/-- Closed instance of `c6_media_caps`: eleven photos from a fresh draft
leave exactly ten stored. -/
theorem c6_media_caps_witness :
    (({} : Profile).images.length ≤ 10) ∧
    (({} : Profile).videos.length ≤ 4) ∧
    ((Bot.runMedia ({}, .images)
        (List.replicate 11 (.photoMsg 9))).1.images.length ≤ 10) ∧
    ((Bot.runMedia ({}, .images)
        (List.replicate 11 (.photoMsg 9))).1.images
      = List.replicate 10 9) :=
  ⟨by decide, by decide,
   (c6_media_caps {} .images (List.replicate 11 (.photoMsg 9))
      (by decide) (by decide)).2.2.1,
   by decide⟩

/-! ### C7: retraction fires at most once, revoke does not cancel -/

/-- Removing a profile (with its listing) never touches the pending sleep
tasks or the performed deletions: the source has no cancellation path. -/
theorem delete_profile_keeps_tasks (admins : List String) (s : Sys)
    (u : Nat) :
    (delete_profile admins s u).1.pending = s.pending ∧
    (delete_profile admins s u).1.deleted_messages = s.deleted_messages := by
  unfold delete_profile
  split
  · exact ⟨rfl, rfl⟩
  · split
    · exact ⟨rfl, rfl⟩
    · exact ⟨rfl, rfl⟩

/-- Firing all due sleep tasks preserves the at-most-once discipline:
each fired task completes and is never re-run. -/
theorem fireDue_preserves (s : Sys) (t : Nat) (hinv : AtMostOnce s) :
    AtMostOnce (fireDue s t) := by
  obtain ⟨hn1, hn2, hdisj⟩ := hinv
  have hpend : (fireDue s t).pending
      = s.pending.filter (fun tk => decide (t < tk.fire_at)) := rfl
  have hdel : (fireDue s t).deleted_messages
      = s.deleted_messages ++
        ((s.pending.filter (fun tk => decide (tk.fire_at ≤ t))).map
          Task.message_id) := rfl
  have hsub1 : List.Sublist
      ((s.pending.filter
        (fun tk => decide (t < tk.fire_at))).map Task.message_id)
      (s.pending.map Task.message_id) :=
    List.Sublist.map Task.message_id (List.filter_sublist s.pending)
  have hsub2 : List.Sublist
      ((s.pending.filter
        (fun tk => decide (tk.fire_at ≤ t))).map Task.message_id)
      (s.pending.map Task.message_id) :=
    List.Sublist.map Task.message_id (List.filter_sublist s.pending)
  unfold AtMostOnce
  rw [hpend, hdel]
  refine ⟨hsub1.nodup hn1, ?_, ?_⟩
  · rw [List.nodup_append]
    refine ⟨hn2, hsub2.nodup hn1, ?_⟩
    intro x hx1 hx2
    exact hdisj x (hsub2.subset hx2) hx1
  · intro m hm
    intro hmd
    rcases List.mem_append.mp hmd with hold | hfired
    · exact hdisj m (hsub1.subset hm) hold
    · rcases List.mem_map.mp hm with ⟨tk1, htk1, rfl⟩
      rcases List.mem_map.mp hfired with ⟨tk2, htk2, heq⟩
      have h1 : tk1 ∈ s.pending := (List.filter_sublist s.pending).subset htk1
      have h2 : tk2 ∈ s.pending := (List.filter_sublist s.pending).subset htk2
      have heq2 : tk2 = tk1 := List.inj_on_of_nodup_map hn1 h2 h1 heq
      rcases List.mem_filter.mp htk1 with ⟨_, hq⟩
      rcases List.mem_filter.mp htk2 with ⟨_, hr⟩
      rw [heq2] at hr
      simp at hq hr
      omega

/-- A publish with a fresh message reference preserves the at-most-once
discipline: the one new task targets a message never deleted before. -/
theorem publish_preserves (s : Sys) (u now hours m : Nat) (tc : Bool)
    (hinv : AtMostOnce s)
    (hf1 : m ∉ s.pending.map Task.message_id)
    (hf2 : m ∉ s.deleted_messages) :
    AtMostOnce (availability_duration s u now hours m tc).1 := by
  obtain ⟨hn1, hn2, hdisj⟩ := hinv
  unfold availability_duration
  cases hget : dictGet s.profiles u with
  | none => exact ⟨hn1, hn2, hdisj⟩
  | some prof =>
    by_cases htc : tc = false
    · rw [if_pos htc]
      exact ⟨hn1, hn2, hdisj⟩
    · rw [if_neg htc]
      refine ⟨?_, hn2, ?_⟩
      · show ((s.pending ++ [Task.mk m (now + hours * 3600)]).map
            Task.message_id).Nodup
        rw [List.map_append, List.nodup_append]
        refine ⟨hn1, List.nodup_singleton m, ?_⟩
        intro x hx1 hx2
        have hxm : x = m := by simpa using hx2
        rw [hxm] at hx1
        exact hf1 hx1
      · show ∀ mm ∈ (s.pending ++ [Task.mk m (now + hours * 3600)]).map
            Task.message_id, mm ∉ s.deleted_messages
        intro mm hmm
        rw [List.map_append] at hmm
        rcases List.mem_append.mp hmm with hcase | hcase
        · exact hdisj mm hcase
        · have hmmm : mm = m := by simpa using hcase
          rw [hmmm]
          exact hf2

/-- C7 counterexample: on a system with one committed profile, publish at
time 0 for 2 hours (message 100, task scheduled for 7200), then revoke by
deleting the profile well before 7200 — the revoke succeeds and removes
the registry entry, yet at the originally scheduled firing time the
detached sleep task still performs the outbound delete of message 100. -/
theorem c7_revoke_counterexample :
    ((delete_profile []
        (availability_duration (sysWithProfile 1) 1 0 2 100 true).1 1).2
      = DeleteOutcome.deleted) ∧
    (dictGet (delete_profile []
        (availability_duration (sysWithProfile 1) 1 0 2 100 true).1
        1).1.active_listings 1 = none) ∧
    ((fireDue (delete_profile []
        (availability_duration (sysWithProfile 1) 1 0 2 100 true).1 1).1
        7200).deleted_messages = [100]) := by decide

/-- C7 (amended): each listing's retraction delete fires at most once (the
pending-task/deleted-message discipline is preserved by firing, by publish
with a fresh message reference, and by revoke), and revoke on a user with
no Listing is a no-op with no error and no outbound call; however, revoke
does NOT cancel the pending sleep task, so the outbound delete is still
performed at the originally scheduled firing time. -/
theorem c7_retraction_at_most_once (admins : List String) (s : Sys)
    (user_id t : Nat)
    (hguard : refusesSimple admins user_id = false)
    (hnone : dictGet s.profiles user_id = none)
    (hinv : AtMostOnce s) :
    (delete_profile admins s user_id = (s, DeleteOutcome.noProfile)) ∧
    AtMostOnce (fireDue s t) ∧
    (∀ (a2 : List String) (s2 : Sys) (u2 : Nat),
        (delete_profile a2 s2 u2).1.pending = s2.pending) ∧
    (∀ (s2 : Sys) (u2 now2 h2 m2 : Nat) (tc : Bool),
        AtMostOnce s2 → m2 ∉ s2.pending.map Task.message_id →
        m2 ∉ s2.deleted_messages →
        AtMostOnce (availability_duration s2 u2 now2 h2 m2 tc).1) ∧
    (∀ (a2 : List String) (s2 : Sys) (u2 t2 : Nat) (tk : Task),
        tk ∈ s2.pending → tk.fire_at ≤ t2 →
        tk.message_id ∈
          (fireDue (delete_profile a2 s2 u2).1 t2).deleted_messages) := by
  refine ⟨?_, fireDue_preserves s t hinv,
    fun a2 s2 u2 => (delete_profile_keeps_tasks a2 s2 u2).1,
    fun s2 u2 n2 h2 m2 tc hv hf1 hf2 =>
      publish_preserves s2 u2 n2 h2 m2 tc hv hf1 hf2, ?_⟩
  · simp [delete_profile, hguard, hnone]
  · intro a2 s2 u2 t2 tk htk hfa
    have hkeep := delete_profile_keeps_tasks a2 s2 u2
    show tk.message_id ∈ (delete_profile a2 s2 u2).1.deleted_messages ++
        (((delete_profile a2 s2 u2).1.pending.filter
            (fun x => decide (x.fire_at ≤ t2))).map Task.message_id)
    rw [hkeep.1]
    apply List.mem_append_right
    apply List.mem_map_of_mem
    exact List.mem_filter.mpr ⟨htk, by simpa using hfa⟩

/-- Closed instance of `c7_retraction_at_most_once`: revoking user 2 (who
holds nothing) on the empty system is a no-op. -/
theorem c7_retraction_at_most_once_witness :
    refusesSimple [] 2 = false ∧
    dictGet emptySys.profiles 2 = none ∧
    AtMostOnce emptySys ∧
    delete_profile [] emptySys 2 = (emptySys, DeleteOutcome.noProfile) :=
  ⟨by decide, by decide, by decide,
   (c7_retraction_at_most_once [] emptySys 2 0 (by decide) (by decide)
      (by decide)).1⟩

/-! ### C8: deleting a profile and the listing registry -/

/-- C8 counterexample: in `bot.py`, after publishing for user 1,
`ProfileDatabase.delete_profile` removes the profile but the registry
still holds the active listing for user 1. -/
theorem c8_bot_delete_counterexample :
    (dictGet (ProfileDatabase.delete_profile
        (availability_duration (sysWithProfile 1) 1 0 2 100 true).1
        1).profiles 1 = none) ∧
    (dictGet (ProfileDatabase.delete_profile
        (availability_duration (sysWithProfile 1) 1 0 2 100 true).1
        1).active_listings 1 = some (ListingB.mk 100 7200 2)) := by decide

/-- C8 (amended): in `main.py` and `bot_simple.py` a successful profile
deletion removes both the profile and any listing for that user, so
neither store holds an entry afterwards; in `bot.py`, however,
`ProfileDatabase.delete_profile` removes only the profile and leaves the
listing registry untouched. -/
theorem c8_delete_removes_listing (db : Database) (s : Sys)
    (admins : List String) (user_id : Nat)
    (hmain : (dictGet db.profiles user_id).isSome = true)
    (hsimple : (dictGet s.profiles user_id).isSome = true)
    (hguard : refusesSimple admins user_id = false) :
    (dictGet (db.delete_profile user_id).1.profiles user_id = none) ∧
    (dictGet (db.delete_profile user_id).1.listings user_id = none) ∧
    ((db.delete_profile user_id).2 = true) ∧
    (dictGet (delete_profile admins s user_id).1.profiles user_id
      = none) ∧
    (dictGet (delete_profile admins s user_id).1.active_listings user_id
      = none) ∧
    ((delete_profile admins s user_id).2 = DeleteOutcome.deleted) ∧
    (∀ (s2 : Sys) (u2 : Nat),
        (ProfileDatabase.delete_profile s2 u2).active_listings
          = s2.active_listings) := by
  have hifm : (db.delete_profile user_id)
      = ({ profiles := dictRemove db.profiles user_id,
           listings := dictRemove db.listings user_id }, true) := by
    unfold Database.delete_profile
    rw [if_pos hmain]
  have hifs : (delete_profile admins s user_id)
      = ({ s with
            profiles := dictRemove s.profiles user_id,
            active_listings := dictRemove s.active_listings user_id },
         DeleteOutcome.deleted) := by
    unfold delete_profile
    rw [if_neg (by simp [hguard]), if_pos hsimple]
  refine ⟨?_, ?_, ?_, ?_, ?_, ?_, fun s2 u2 => rfl⟩
  · rw [hifm]
    exact dictGet_remove_self db.profiles user_id
  · rw [hifm]
    exact dictGet_remove_self db.listings user_id
  · rw [hifm]
  · rw [hifs]
    exact dictGet_remove_self s.profiles user_id
  · rw [hifs]
    exact dictGet_remove_self s.active_listings user_id
  · rw [hifs]

/-- Closed instance of `c8_delete_removes_listing`: user 1 with a profile
and a listing in the `main.py` database; after deletion the listing is
gone. -/
theorem c8_delete_removes_listing_witness :
    ((dictGet dbWithProfile.profiles 1).isSome = true) ∧
    ((dictGet (sysWithProfile 1).profiles 1).isSome = true) ∧
    (refusesSimple [] 1 = false) ∧
    (dictGet (dbWithProfile.delete_profile 1).1.listings 1 = none) :=
  ⟨by decide, by decide, by decide,
   (c8_delete_removes_listing dbWithProfile (sysWithProfile 1) [] 1
      (by decide) (by decide) (by decide)).2.1⟩

end Teagram
